import Mathlib

/-!
Verification of the greenhouse cooperative-task runtime (src/greenhouse)
against its natural-language specification.

Shallow embedding notes.  Tasks (greenlets) are identified by natural
numbers.  The process-wide scheduler state relevant to an `Event` is the
slice of `state.paused_on_events` under this event's guid (a list of
waiting task ids), the global `state.awoken_from_events` (a Python set,
embedded as a `Finset`), and the event's own fields.  Each Python method
becomes a Lean state-transformer on these records; a method that can
raise returns the raised value alongside the state.
-/

namespace Greenhouse

/-- Task (greenlet) identity. -/
abbrev TaskId := Nat

/-- Timeout-callback failures: each callback either returns (`none`) or
raises an exception, embedded as a `Nat` payload (`some e`). -/
abbrev Err := Nat

/-- State of one `Event` (src/greenhouse/utils.py, class Event) together
with the scheduler-state slices it touches:
`is_set` is `self._is_set`; `waiters` is `state.paused_on_events[self._guid]`
(a defaultdict entry, so a deleted key reads back as the empty list);
`awoken` is `state.awoken_from_events` (a Python set);
`activeTimeoutRunners` is `self._active_timeout_runners`, holding the
identities of pending `hit_timeout` closures. -/
structure EventState where
  is_set : Bool
  waiters : List TaskId
  awoken : Finset TaskId
  activeTimeoutRunners : Finset Nat
  deriving DecidableEq

/-- `Event.__init__`: unsignaled, no waiters recorded under the fresh guid,
no active timeout runners.  `awoken` is global state, passed in. -/
def Event.init (awoken : Finset TaskId) : EventState :=
  { is_set := false, waiters := [], awoken := awoken, activeTimeoutRunners := ∅ }

/-- `Event.set` (utils.py lines 31-40): marks signaled, clears the active
timeout runners, unions the event's waiter list into the global awoken set
(`state.awoken_from_events.update(...)`), and deletes the waiter list
(`del state.paused_on_events[self._guid]`; the defaultdict then reads back
as empty). -/
def Event.set (s : EventState) : EventState :=
  { is_set := true
    activeTimeoutRunners := ∅
    awoken := s.awoken ∪ s.waiters.toFinset
    waiters := [] }

/-- `Event.clear` (utils.py lines 42-47): unmarks signaled only. -/
def Event.clear (s : EventState) : EventState :=
  { s with is_set := false }

/-- `Event.wait` (utils.py lines 54-79) for calling task `current`.
If the event is signaled, the body is skipped entirely: no waiter is
appended, no timer armed, and the caller does not suspend.  Otherwise the
caller is appended to the waiter list; when a timeout is given, a fresh
`hit_timeout` closure (identified by `rid`) is scheduled via
`scheduler.schedule_in` and recorded in `_active_timeout_runners`; then
`scheduler.go_to_next()` suspends the caller.  The returned Bool is
whether the caller suspended. -/
def Event.wait (current : TaskId) (timeout : Option Nat) (rid : Nat)
    (s : EventState) : Bool × EventState :=
  if s.is_set then
    (false, s)
  else
    (true,
      { s with
        waiters := s.waiters ++ [current]
        activeTimeoutRunners :=
          match timeout with
          | none => s.activeTimeoutRunners
          | some _ => insert rid s.activeTimeoutRunners })

/-- The callback loop inside `hit_timeout` (utils.py lines 69-77): run every
registered callback in registration order, remembering the first raised
exception; callbacks are (identity, outcome) pairs.  Returns the list of
callback identities that were executed, in execution order, and the error
held in `error` when the loop finishes. -/
def Event.runTimeoutCallbacks (cbs : List (Nat × Option Err)) :
    List Nat × Option Err :=
  cbs.foldl (fun acc cb => (acc.1 ++ [cb.1], acc.2 <|> cb.2)) ([], none)

/-- `hit_timeout` (utils.py lines 64-77), the closure scheduled by a timed
`Event.wait` of task `current`, with closure identity `rid` and the
callbacks registered for `current` in `self._timeout_callbacks[current]`.
If the closure is no longer in `_active_timeout_runners` (a `set()`
intervened) it returns at once.  Otherwise it removes `current` from the
waiter list (`list.remove`: first occurrence), adds it to the awoken set,
runs all callbacks in order recording the first failure, and finally
raises that failure if there was one.  Returns the new state, the trace of
executed callback identities, and the raised error (if any). -/
def Event.hitTimeout (current : TaskId) (rid : Nat)
    (cbs : List (Nat × Option Err)) (s : EventState) :
    EventState × List Nat × Option Err :=
  if rid ∉ s.activeTimeoutRunners then
    (s, [], none)
  else
    let s1 := { s with
      waiters := s.waiters.erase current
      awoken := insert current s.awoken }
    let r := Event.runTimeoutCallbacks cbs
    (s1, r.1, r.2)

/-- State of a `Semaphore` (utils.py lines 212-244): `value` is
`self._value` (a non-negative counter, asserted `>= 0` in `__init__`);
`waiters` is `self._waiters`, the deque of per-waiter Events, embedded by
their identities. -/
structure SemState where
  value : Nat
  waiters : List Nat
  deriving DecidableEq

/-- `Semaphore.__init__(value)` with no waiters. -/
def Semaphore.init (value : Nat) : SemState :=
  { value := value, waiters := [] }

/-- `Semaphore.acquire(blocking=False)` (utils.py lines 221-227): if the
counter is non-zero, decrement it and return True; otherwise return False
with no state change (the blocking branch that appends a waiter Event and
suspends is not reached when `blocking` is False). -/
def Semaphore.acquireNB (s : SemState) : Bool × SemState :=
  if s.value ≠ 0 then
    (true, { s with value := s.value - 1 })
  else
    (false, s)

/-- `Semaphore.release` (utils.py lines 233-238): if the counter is
non-zero or there are no waiters, increment the counter; otherwise pop the
oldest waiter and set its Event. -/
def Semaphore.release (s : SemState) : SemState :=
  if s.value ≠ 0 ∨ s.waiters = [] then
    { s with value := s.value + 1 }
  else
    { s with waiters := s.waiters.tail }

/-- `n` successive `release()` calls. -/
def Semaphore.nReleases : Nat → SemState → SemState
  | 0, s => s
  | n + 1, s => Semaphore.nReleases n (Semaphore.release s)

/-- `k` successive non-blocking `acquire` calls; returns the list of their
results in call order and the final state. -/
def Semaphore.acqSeq : Nat → SemState → List Bool × SemState
  | 0, s => ([], s)
  | k + 1, s =>
    let r1 := Semaphore.acquireNB s
    let r2 := Semaphore.acqSeq k r1.2
    (r1.1 :: r2.1, r2.2)

/-- State of a `BoundedSemaphore` (utils.py lines 246-256): the underlying
semaphore state plus `self._initial_value`. -/
structure BSemState where
  sem : SemState
  initial_value : Nat
  deriving DecidableEq

/-- `BoundedSemaphore.release` (utils.py lines 252-255): raises ValueError
when the counter is already at or above the initial value, otherwise
defers to `Semaphore.release`.  Returns `(some ())` for the raised
ValueError alongside the (then unchanged) state. -/
def BSem.release (s : BSemState) : Option Unit × BSemState :=
  if s.sem.value ≥ s.initial_value then
    (some (), s)
  else
    (none, { s with sem := Semaphore.release s.sem })

/-- State of a `Queue` (utils.py lines 300-401).  `maxsize`, `queue` and
`unfinished_tasks` are the fields of those names; `all_tasks_done_set` is
the `_is_set` flag of the `all_tasks_done` Event; `not_empty_waiters` and
`not_full_waiters` count the per-wait Events queued on the two Conditions
(`not_empty._waiters`, `not_full._waiters`). -/
structure QueueState where
  maxsize : Nat
  queue : List Int
  unfinished_tasks : Nat
  all_tasks_done_set : Bool
  not_empty_waiters : Nat
  not_full_waiters : Nat
  deriving DecidableEq

/-- `Queue._unsafe_put` (utils.py lines 360-366): notify one `not_empty`
waiter (under that Condition's lock, which is free here), append the item,
clear `all_tasks_done` when there were no unfinished tasks, and count the
new unfinished task. -/
def Queue.unsafePut (item : Int) (q : QueueState) : QueueState :=
  { q with
    not_empty_waiters := q.not_empty_waiters - 1
    queue := q.queue ++ [item]
    all_tasks_done_set :=
      if q.unfinished_tasks = 0 then false else q.all_tasks_done_set
    unfinished_tasks := q.unfinished_tasks + 1 }

/-- `Queue.put` (utils.py lines 368-385).  The blocking wait on the
`not_full` Condition suspends the caller; `qAfterWait` is the queue state
observed when that wait returns (other tasks ran meanwhile), an oracle
standing for the suspension.  The returned Bool records whether
`self.Full()` was raised.  Note the source: after the blocking branch
(wait, then `_unsafe_put` when capacity was freed) control falls through
to `raise self.Full()` unconditionally — unlike `get`, which returns the
item from inside its blocking branch. -/
def Queue.put (item : Int) (blocking : Bool) (q qAfterWait : QueueState) :
    QueueState × Bool :=
  if q.maxsize ≠ 0 ∧ q.queue.length ≥ q.maxsize then
    if blocking then
      let q2 :=
        if qAfterWait.queue.length < qAfterWait.maxsize then
          Queue.unsafePut item qAfterWait
        else qAfterWait
      (q2, true)
    else (q, true)
  else (Queue.unsafePut item q, false)

/-- A `Poll`/`Epoll`/`Select` registry (`self._registry`), embedded as the
association list of a Python dict: descriptor to interest mask. -/
def regLookup (fd : Nat) : List (Nat × Nat) → Option Nat
  | [] => none
  | (k, v) :: rest => if k = fd then some v else regLookup fd rest

/-- Python dict assignment `self._registry[fd] = mask`: overwrite in place
if present, else append. -/
def regSet (fd mask : Nat) : List (Nat × Nat) → List (Nat × Nat)
  | [] => [(fd, mask)]
  | (k, v) :: rest =>
    if k = fd then (k, mask) :: rest else (k, v) :: regSet fd mask rest

/-- Python `self._registry.pop(fd)` / `del self._registry[fd]`. -/
def regPop (fd : Nat) : List (Nat × Nat) → List (Nat × Nat)
  | [] => []
  | (k, v) :: rest => if k = fd then rest else (k, v) :: regPop fd rest

/-- `Poll.register` (poller.py lines 23-38), after the `eventmask=None`
default (lines 25-26) has been resolved to `INMASK|OUTMASK|ERRMASK`: when
`fd` is already registered with `reg`, a mask adding no new bits returns
at once; otherwise the masks are merged by bitwise OR, the stale entry is
removed (`self.unregister(fd)`, which also pops the registry entry) and
the merged mask is registered.  The OS-level `self._poller` calls carry no
registry state and are outside the embedding. -/
def Poll.register (registry : List (Nat × Nat)) (fd eventmask : Nat) :
    List (Nat × Nat) :=
  match regLookup fd registry with
  | some reg =>
    if reg &&& eventmask = eventmask then registry
    else regSet fd (reg ||| eventmask) (regPop fd registry)
  | none => regSet fd eventmask registry

/-- `Select.register` (poller.py lines 65-79), after the `eventmask=None`
default has been resolved: identical merge logic, but the registry entry
is overwritten in place and no OS facility is involved (the `isnew`
return value is not modelled). -/
def Select.register (registry : List (Nat × Nat)) (fd eventmask : Nat) :
    List (Nat × Nat) :=
  match regLookup fd registry with
  | some reg =>
    if reg &&& eventmask = eventmask then registry
    else regSet fd (reg ||| eventmask) registry
  | none => regSet fd eventmask registry

/-- Modelled from the spec: the `Channel` class is not under src/ (the
tests exercise `greenhouse.utils.Channel` but utils.py as given does not
contain it).  Spec section 4.4 and the data model of section 3:
`balance` is a signed integer, `senders` the ordered queue of
(value, task) pairs of waiting senders, `receivers` the ordered queue of
waiting receiver tasks. -/
structure Channel where
  balance : Int
  senders : List (Int × TaskId)
  receivers : List TaskId
  deriving DecidableEq

/-- Modelled from the spec: a fresh Channel has balance 0 and no waiters
on either side. -/
def Channel.init : Channel :=
  { balance := 0, senders := [], receivers := [] }

/-- Modelled from the spec: `send(value)` (section 4.4) — with a waiting
receiver, remove the oldest, hand it the value and transfer control
directly; with none, enqueue (value, caller) into waiting-senders,
increment `balance`, and suspend.  The balance also increments in the
hand-off branch: the section 3 invariant (balance equals the count of
waiting senders minus waiting receivers) and the `test_balance` sequence
(sends while receivers are blocked raise the balance back toward zero)
both require it. -/
def Channel.send (value : Int) (caller : TaskId) (c : Channel) : Channel :=
  match c.receivers with
  | _ :: rest => { c with receivers := rest, balance := c.balance + 1 }
  | [] =>
    { c with
      senders := c.senders ++ [(value, caller)]
      balance := c.balance + 1 }

/-- Modelled from the spec: `receive()` (section 4.4) — with a waiting
sender, remove the oldest, schedule it onto the run queue, decrement
`balance`, and return its value without suspending; with none, enqueue
the caller into waiting-receivers, decrement `balance`, and suspend. -/
def Channel.receive (caller : TaskId) (c : Channel) : Channel × Option Int :=
  match c.senders with
  | (v, _) :: rest =>
    ({ c with senders := rest, balance := c.balance - 1 }, some v)
  | [] =>
    ({ c with
        receivers := c.receivers ++ [caller]
        balance := c.balance - 1 }, none)

/-- One channel operation: a send of a value by a task, or a receive by a
task. -/
inductive ChanOp where
  | send (value : Int) (caller : TaskId)
  | receive (caller : TaskId)
  deriving DecidableEq

/-- Apply one operation to a channel. -/
def ChanOp.apply (c : Channel) : ChanOp → Channel
  | .send v t => Channel.send v t c
  | .receive t => (Channel.receive t c).1

/-- Run a sequence of channel operations from a given state. -/
def Channel.run (c : Channel) (ops : List ChanOp) : Channel :=
  ops.foldl ChanOp.apply c

/-- Count of sends in a sequence of operations. -/
def ChanOp.sends (ops : List ChanOp) : Nat :=
  ops.countP (fun op => match op with | .send _ _ => true | _ => false)

/-- Count of receives in a sequence of operations. -/
def ChanOp.receives (ops : List ChanOp) : Nat :=
  ops.countP (fun op => match op with | .receive _ => true | _ => false)

/-- The Channel invariant of spec section 3: the balance equals the number
of waiting senders minus the number of waiting receivers, and the two
waiting queues are never both non-empty. -/
def Channel.inv (c : Channel) : Prop :=
  c.balance = (c.senders.length : Int) - c.receivers.length ∧
    (c.senders = [] ∨ c.receivers = [])

/-- The lexicographic order in which `state.timed_paused` is kept sorted:
Python compares its `(waketime, greenlet)` tuples componentwise, greenlets
by a fixed total order (their addresses), embedded as `TaskId`. -/
def pairLE (a b : Nat × Nat) : Prop :=
  a.1 < b.1 ∨ (a.1 = b.1 ∧ a.2 ≤ b.2)

instance (a b : Nat × Nat) : Decidable (pairLE a b) :=
  inferInstanceAs (Decidable (_ ∨ _))

/-- `bisect.bisect(tp, x)`: the insertion point to the right of all
entries equal to `x`.  The stdlib uses binary search; on a sorted list
that equals the length of the maximal prefix of elements `≤ x`, which is
what this computes. -/
def bisectRight (tp : List (Nat × Nat)) (x : Nat × Nat) : Nat :=
  (tp.takeWhile (fun y => decide (pairLE y x))).length

/-- `Timer.cancel` (utils.py lines 270-277) for a timer with the given
`waketime` and greenlet, acting on `tp = state.timed_paused`: return at
once when the timer set is empty; otherwise index
`bisect.bisect(tp, (waketime, glet)) - 1` — `-1` in Python indexes the
last element, embedded explicitly — and splice the entry out
(`tp[index:index+1] = []`) only when the greenlet there is this timer's.
On a non-empty list the index is always in range, so the out-of-range
branch below is unreachable (Python would raise IndexError). -/
def Timer.cancel (waketime glet : Nat) (tp : List (Nat × Nat)) :
    List (Nat × Nat) :=
  if tp.isEmpty then tp
  else
    let b := bisectRight tp (waketime, glet)
    let i := if b = 0 then tp.length - 1 else b - 1
    if h : i < tp.length then
      if (tp.get ⟨i, h⟩).2 = glet then tp.eraseIdx i else tp
    else tp

/-- Modelled from the spec: dispatch step (3) of section 4.1 — the
scheduler module is not under src/ — pops every timer due at or before
`now` out of the timer set; a timer's greenlet begins running only by
being popped here, so a greenlet absent from the set never runs. -/
def dueTimers (now : Nat) (tp : List (Nat × Nat)) : List (Nat × Nat) :=
  tp.filter (fun e => e.1 ≤ now)

/-- State of a `Lock` (utils.py lines 81-116): `locked` is `self._locked`
and `event` the private `self._event`. -/
structure LockState where
  locked : Bool
  event : EventState
  deriving DecidableEq

/-- `Lock.__init__`: unlocked, fresh Event. -/
def Lock.init (awoken : Finset TaskId) : LockState :=
  { locked := false, event := Event.init awoken }

/-- `Lock.acquire(blocking=False)` (utils.py lines 95-98): records whether
the lock was already held, marks it held, and returns True exactly when
it was previously free.  The event is untouched. -/
def Lock.acquireNB (s : LockState) : Bool × LockState :=
  (!s.locked, { s with locked := true })

/-- One iteration of the blocking-acquire loop (utils.py lines 99-102):
while the lock is held, `self._event.wait()` (no timeout) appends the
caller to the event's waiter list and suspends; once an iteration finds
the lock free, it marks it held and returns.  The Bool is whether the
caller suspended in this iteration. -/
def Lock.acquireStep (current : TaskId) (rid : Nat) (s : LockState) :
    Bool × LockState :=
  if s.locked then
    (true, { s with event := (Event.wait current none rid s.event).2 })
  else
    (false, { s with locked := true })

/-- `Lock.release` (utils.py lines 104-110): releasing an unheld lock
raises RuntimeError (`some ()`) with no state change; otherwise unlock,
`self._event.set()` (waking all current waiters) and immediately
`self._event.clear()`. -/
def Lock.release (s : LockState) : Option Unit × LockState :=
  if !s.locked then
    (some (), s)
  else
    (none, { locked := false, event := Event.clear (Event.set s.event) })

/-- State of an `RLock` (utils.py lines 118-156): the inherited Lock
fields plus `self._owner` and `self._count`. -/
structure RLockState where
  locked : Bool
  event : EventState
  owner : Option TaskId
  count : Int
  deriving DecidableEq

/-- `RLock.__init__`: unlocked, fresh Event, no owner, zero count. -/
def RLock.init (awoken : Finset TaskId) : RLockState :=
  { locked := false, event := Event.init awoken, owner := none, count := 0 }

/-- `RLock.acquire(blocking=False)` (utils.py lines 130-144): the owner
re-enters by bumping the count; otherwise a held lock fails; otherwise
take ownership with count 1. -/
def RLock.acquireNB (current : TaskId) (s : RLockState) : Bool × RLockState :=
  if s.owner = some current then
    (true, { s with count := s.count + 1 })
  else if s.locked then
    (false, s)
  else
    (true, { s with locked := true, owner := some current, count := 1 })

/-- One iteration of `RLock.acquire(blocking=True)` (utils.py lines
130-144): the owner re-enters without suspending; a non-owner finding the
lock held waits on the event (appending itself, suspending); a non-owner
finding it free takes ownership.  The Bool is whether the caller
suspended. -/
def RLock.acquireStep (current : TaskId) (rid : Nat) (s : RLockState) :
    Bool × RLockState :=
  if s.owner = some current then
    (false, { s with count := s.count + 1 })
  else if s.locked then
    (true, { s with event := (Event.wait current none rid s.event).2 })
  else
    (false, { s with locked := true, owner := some current, count := 1 })

/-- `RLock.release` (utils.py lines 146-156): a caller that does not hold
the lock gets RuntimeError with no state change; otherwise the count
drops by one, and at zero the lock is fully released — owner cleared,
`self._event.set()` then immediately `self._event.clear()`. -/
def RLock.release (current : TaskId) (s : RLockState) : Option Unit × RLockState :=
  if !s.locked ∨ s.owner ≠ some current then
    (some (), s)
  else if s.count - 1 = 0 then
    (none, { locked := false, owner := none, count := s.count - 1,
             event := Event.clear (Event.set s.event) })
  else
    (none, { s with count := s.count - 1 })

/-- A public Lock operation, with the calling task and (for the blocking
iterations) the fresh timeout-runner id `Event.wait` would use. -/
inductive LockOp where
  | acquireNB
  | acquireStep (current : TaskId) (rid : Nat)
  | release
  deriving DecidableEq

/-- Apply one Lock operation, dropping return values. -/
def LockOp.apply (s : LockState) : LockOp → LockState
  | .acquireNB => (Lock.acquireNB s).2
  | .acquireStep current rid => (Lock.acquireStep current rid s).2
  | .release => (Lock.release s).2

/-- Run a sequence of Lock operations. -/
def Lock.run (s : LockState) (ops : List LockOp) : LockState :=
  ops.foldl LockOp.apply s

/-- A public RLock operation. -/
inductive RLockOp where
  | acquireNB (current : TaskId)
  | acquireStep (current : TaskId) (rid : Nat)
  | release (current : TaskId)
  deriving DecidableEq

/-- Apply one RLock operation, dropping return values. -/
def RLockOp.apply (s : RLockState) : RLockOp → RLockState
  | .acquireNB current => (RLock.acquireNB current s).2
  | .acquireStep current rid => (RLock.acquireStep current rid s).2
  | .release current => (RLock.release current s).2

/-- Run a sequence of RLock operations. -/
def RLock.run (s : RLockState) (ops : List RLockOp) : RLockState :=
  ops.foldl RLockOp.apply s

/-- Helper: once an error has been recorded, the callback loop keeps it and
still runs every remaining callback. -/
theorem cbFoldl_some (cbs : List (Nat × Option Err)) (pre : List Nat) (e : Err) :
    cbs.foldl (fun acc cb => (acc.1 ++ [cb.1], acc.2 <|> cb.2)) (pre, some e) =
      (pre ++ cbs.map Prod.fst, some e) := by
  induction cbs generalizing pre with
  | nil => simp
  | cons c rest ih => simp [ih]

/-- Helper: with no error recorded yet, the callback loop runs every
callback and ends holding the first failure, if any. -/
theorem cbFoldl_none (cbs : List (Nat × Option Err)) (pre : List Nat) :
    cbs.foldl (fun acc cb => (acc.1 ++ [cb.1], acc.2 <|> cb.2)) (pre, none) =
      (pre ++ cbs.map Prod.fst, (cbs.filterMap Prod.snd).head?) := by
  induction cbs generalizing pre with
  | nil => simp
  | cons c rest ih =>
    cases hc : c.2 with
    | none => simp [hc, ih]
    | some e => simp [hc, cbFoldl_some]

end Greenhouse

namespace Greenhouse

/-- C1: `wait()` on a signaled event returns immediately: the caller does
not suspend, and the entire state — waiter list included — is unchanged,
for any timeout argument. -/
theorem wait_after_set_returns_immediately
    (s : EventState) (current : TaskId) (timeout : Option Nat) (rid : Nat)
    (h : s.is_set = true) :
    Event.wait current timeout rid s = (false, s) := by
  simp [Event.wait, h]

/-- Witness for C1 at a concrete signaled event. -/
theorem wait_after_set_returns_immediately_witness :
    Event.wait 7 (some 3) 0 (Event.set (Event.init ∅)) =
      (false, Event.set (Event.init ∅)) :=
  wait_after_set_returns_immediately _ 7 (some 3) 0 (by rfl)

/-- C2: one `set()` marks the event signaled, moves the whole waiter list
into the global awoken set as one batch (set union, so no task is added
twice), and clears the waiter list; every waiter lands in the awoken set
(none dropped) and a task appears in the resulting awoken set at most once
(it is a set). -/
theorem set_wakes_all_waiters (s : EventState) :
    (Event.set s).is_set = true ∧
    (Event.set s).waiters = [] ∧
    (Event.set s).awoken = s.awoken ∪ s.waiters.toFinset ∧
    (∀ t, t ∈ s.waiters → t ∈ (Event.set s).awoken) := by
  refine ⟨rfl, rfl, rfl, ?_⟩
  intro t ht
  simp [Event.set, List.mem_toFinset.2 ht]

/-- Witness for C2: three concrete waiters all end up awoken, the waiter
list is cleared, and the event is signaled. -/
theorem set_wakes_all_waiters_witness :
    ((Event.set ⟨false, [4, 5, 6], ∅, ∅⟩).is_set = true ∧
      (Event.set ⟨false, [4, 5, 6], ∅, ∅⟩).waiters = [] ∧
      (Event.set ⟨false, [4, 5, 6], ∅, ∅⟩).awoken =
        (∅ : Finset TaskId) ∪ ([4, 5, 6] : List TaskId).toFinset ∧
      (∀ t, t ∈ ([4, 5, 6] : List TaskId) →
        t ∈ (Event.set ⟨false, [4, 5, 6], ∅, ∅⟩).awoken)) :=
  set_wakes_all_waiters ⟨false, [4, 5, 6], ∅, ∅⟩

/-- C3: when the timeout fires with no intervening `set()` (the runner is
still active), `hit_timeout` executes every registered callback, in
registration order, whether or not earlier ones raised; the error it
finally raises is the first failure among them, and it is raised only
after the whole trace has run (the returned trace is total). The waiting
task is removed from the waiter list and moved to the awoken set. -/
theorem hit_timeout_runs_all_callbacks
    (current : TaskId) (rid : Nat) (cbs : List (Nat × Option Err))
    (s : EventState) (h : rid ∈ s.activeTimeoutRunners) :
    Event.hitTimeout current rid cbs s =
      ({ s with
          waiters := s.waiters.erase current
          awoken := insert current s.awoken },
        cbs.map Prod.fst,
        (cbs.filterMap Prod.snd).head?) := by
  have : Event.runTimeoutCallbacks cbs =
      (cbs.map Prod.fst, (cbs.filterMap Prod.snd).head?) := by
    simpa [Event.runTimeoutCallbacks] using cbFoldl_none cbs []
  simp [Event.hitTimeout, h, this]

/-- Witness for C3: four callbacks of which the second and third raise;
all four run in order and the second's exception is the one propagated. -/
theorem hit_timeout_runs_all_callbacks_witness :
    Event.hitTimeout 9 1 [(1, none), (2, some 5), (3, some 7), (4, none)]
        ⟨false, [9], ∅, {1}⟩ =
      (⟨false, [], {9}, {1}⟩, [1, 2, 3, 4], some 5) := by
  have h := hit_timeout_runs_all_callbacks 9 1
    [(1, none), (2, some 5), (3, some 7), (4, none)] ⟨false, [9], ∅, {1}⟩
    (by decide)
  simpa using h

/-- Helper: with no waiters, `n` releases add `n` to the counter. -/
theorem nReleases_no_waiters (n v : Nat) :
    Semaphore.nReleases n ⟨v, []⟩ = ⟨v + n, []⟩ := by
  induction n generalizing v with
  | zero => rfl
  | succ n ih =>
    have : Semaphore.release ⟨v, []⟩ = ⟨v + 1, []⟩ := by
      simp [Semaphore.release]
    rw [Semaphore.nReleases, this, ih]
    congr 1
    omega

/-- Helper: from a counter of `m`, `m + 1` non-blocking acquires return
`m` times True followed by one False, draining the counter to zero. -/
theorem acqSeq_drains (m : Nat) (w : List Nat) :
    Semaphore.acqSeq (m + 1) ⟨m, w⟩ =
      (List.replicate m true ++ [false], ⟨0, w⟩) := by
  induction m with
  | zero => simp [Semaphore.acqSeq, Semaphore.acquireNB]
  | succ m ih =>
    have h1 : Semaphore.acquireNB ⟨m + 1, w⟩ = (true, ⟨m, w⟩) := by
      simp [Semaphore.acquireNB]
    have step : Semaphore.acqSeq (m + 1 + 1) ⟨m + 1, w⟩ =
        (true :: (Semaphore.acqSeq (m + 1) ⟨m, w⟩).1,
          (Semaphore.acqSeq (m + 1) ⟨m, w⟩).2) := by
      rw [Semaphore.acqSeq, h1]
    rw [step, ih, List.replicate_succ]
    simp

/-- C6 counterexample: the claim quantifies over every Semaphore, but the
constructor's default counter is 1 (`Semaphore.__init__(value=1)`).  With
n = 0 releases the claim says the first non-blocking acquire returns
False; on a default semaphore it returns True. -/
theorem semaphore_claim_false_at_default :
    (Semaphore.acqSeq 1 (Semaphore.nReleases 0 (Semaphore.init 1))).1 = [true] ∧
    (Semaphore.acqSeq 1 (Semaphore.nReleases 0 (Semaphore.init 1))).1 ≠ [false] := by
  constructor <;> decide

/-- C6 amended: for every Semaphore created with initial value `v` (and no
blocked waiters) and every n ≥ 0, after n `release()` calls exactly
`v + n` non-blocking acquires return True and the `(v + n + 1)`-th
returns False. -/
theorem semaphore_counting (v n : Nat) :
    (Semaphore.acqSeq (v + n + 1) (Semaphore.nReleases n (Semaphore.init v))).1 =
      List.replicate (v + n) true ++ [false] := by
  rw [show Semaphore.init v = (⟨v, []⟩ : SemState) from rfl,
    nReleases_no_waiters, acqSeq_drains]

/-- C7: `BoundedSemaphore.release` with the counter at or above the
initial value raises ValueError and changes no component of the state. -/
theorem bounded_release_above_initial_fails
    (s : BSemState) (h : s.sem.value ≥ s.initial_value) :
    BSem.release s = (some (), s) := by
  simp [BSem.release, h]

/-- Witness for C7: a fresh `BoundedSemaphore(1)` raises on release and is
left unchanged. -/
theorem bounded_release_above_initial_fails_witness :
    BSem.release ⟨⟨1, []⟩, 1⟩ = (some (), ⟨⟨1, []⟩, 1⟩) :=
  bounded_release_above_initial_fails ⟨⟨1, []⟩, 1⟩ (by decide)

/-- C5 (code bug): a blocking `put(2)` on a full `Queue(maxsize=1)` whose
wait ends after a `get()` freed capacity does place the item (the final
queue is `[2]`, `unfinished_tasks` is incremented) — and then still
raises `Full` (second component `true`), because the blocking branch of
`put` falls through to `raise self.Full()` with no `return` after
`_unsafe_put`, unlike `get`.  The claim (and the method's docstring and
`test_put_sized_blocking`) say this call completes without raising. -/
theorem queue_put_blocking_raises_despite_insert :
    Queue.put 2 true ⟨1, [1], 1, false, 0, 0⟩ ⟨1, [], 1, false, 0, 0⟩ =
      (⟨1, [2], 2, false, 0, 0⟩, true) := by
  rfl

/-- Helper: looking up a key right after a dict assignment of that key
yields the assigned value. -/
theorem regLookup_regSet (fd m : Nat) :
    ∀ r : List (Nat × Nat), regLookup fd (regSet fd m r) = some m := by
  intro r
  induction r with
  | nil => simp [regSet, regLookup]
  | cons kv rest ih =>
    by_cases hk : kv.1 = fd
    · simp [regSet, regLookup, hk]
    · simp [regSet, regLookup, hk, ih]

/-- Helper: a mask whose bits are all already present is absorbed by
bitwise OR. -/
theorem lor_eq_self_of_and {a b : Nat} (h : a &&& b = b) : a ||| b = a := by
  apply Nat.eq_of_testBit_eq
  intro i
  have hb := congrArg (fun x => Nat.testBit x i) h
  simp only [Nat.testBit_and] at hb
  simp only [Nat.testBit_or]
  cases ha : a.testBit i
  · simp [ha] at hb ⊢
    simp [hb]
  · simp [ha]

/-- C9: for both the `Poll`/`Epoll` backend and the `Select` backend,
`register(fd, mask)` leaves the registry mapping `fd` to the bitwise OR of
the previous mask (0-for-absent) with the new one; and when the new mask
adds no bits beyond the existing registration, the call returns early and
the registry is exactly unchanged. -/
theorem register_merges_by_or (registry : List (Nat × Nat)) (fd mask : Nat) :
    (regLookup fd (Poll.register registry fd mask) =
      some ((regLookup fd registry).getD 0 ||| mask)) ∧
    (regLookup fd (Select.register registry fd mask) =
      some ((regLookup fd registry).getD 0 ||| mask)) ∧
    (∀ reg, regLookup fd registry = some reg → reg &&& mask = mask →
      Poll.register registry fd mask = registry ∧
      Select.register registry fd mask = registry) := by
  cases h : regLookup fd registry with
  | none =>
    refine ⟨?_, ?_, ?_⟩
    · simp [Poll.register, h, regLookup_regSet]
    · simp [Select.register, h, regLookup_regSet]
    · intro reg hreg
      exact Option.noConfusion hreg
  | some reg =>
    by_cases hc : reg &&& mask = mask
    · refine ⟨?_, ?_, ?_⟩
      · simp [Poll.register, h, hc, lor_eq_self_of_and hc]
      · simp [Select.register, h, hc, lor_eq_self_of_and hc]
      · intro reg' hreg' hsub
        simp [Poll.register, Select.register, h, hc]
    · refine ⟨?_, ?_, ?_⟩
      · simp [Poll.register, h, hc, regLookup_regSet]
      · simp [Select.register, h, hc, regLookup_regSet]
      · intro reg' hreg' hsub
        injection hreg' with he
        subst he
        exact absurd hsub hc

/-- Helper: one channel operation preserves the balance invariant. -/
theorem chanStep_inv (c : Channel) (op : ChanOp) (h : Channel.inv c) :
    Channel.inv (ChanOp.apply c op) := by
  obtain ⟨hb, hq⟩ := h
  cases op with
  | send v t =>
    cases hr : c.receivers with
    | nil =>
      refine ⟨?_, ?_⟩
      · simp [ChanOp.apply, Channel.send, hr, hb]
      · right
        simp [ChanOp.apply, Channel.send, hr]
    | cons r rest =>
      have hs : c.senders = [] := by
        rcases hq with hs | hrec
        · exact hs
        · rw [hr] at hrec
          exact List.noConfusion hrec
      refine ⟨?_, ?_⟩
      · rw [hr, hs] at hb
        simp [ChanOp.apply, Channel.send, hr, hs, hb]
      · left
        simp [ChanOp.apply, Channel.send, hr, hs]
  | receive t =>
    cases hsn : c.senders with
    | nil =>
      refine ⟨?_, ?_⟩
      · simp [ChanOp.apply, Channel.receive, hsn]
        rw [hsn] at hb
        simp at hb
        omega
      · left
        simp [ChanOp.apply, Channel.receive, hsn]
    | cons sv rest =>
      have hrc : c.receivers = [] := by
        rcases hq with hs | hrec
        · rw [hsn] at hs
          exact List.noConfusion hs
        · exact hrec
      refine ⟨?_, ?_⟩
      · rw [hsn, hrc] at hb
        simp [ChanOp.apply, Channel.receive, hsn, hrc, hb]
      · right
        simp [ChanOp.apply, Channel.receive, hsn, hrc]

/-- Helper: every send raises the balance by one and every receive lowers
it by one, in both branches of each. -/
theorem chanStep_balance (c : Channel) (op : ChanOp) :
    (ChanOp.apply c op).balance =
      c.balance + (match op with | .send _ _ => 1 | .receive _ => -1) := by
  cases op with
  | send v t => cases hr : c.receivers <;> simp [ChanOp.apply, Channel.send, hr]
  | receive t =>
    cases hs : c.senders with
    | nil =>
      simp [ChanOp.apply, Channel.receive, hs]
      omega
    | cons sv rest =>
      simp [ChanOp.apply, Channel.receive, hs]
      omega

/-- Helper: running any operation sequence from an invariant-satisfying
state keeps the invariant and shifts the balance by sends minus
receives. -/
theorem chanRun_aux (ops : List ChanOp) :
    ∀ c : Channel, Channel.inv c →
      Channel.inv (Channel.run c ops) ∧
      (Channel.run c ops).balance =
        c.balance + (ChanOp.sends ops : Int) - ChanOp.receives ops := by
  induction ops with
  | nil =>
    intro c hc
    refine ⟨hc, ?_⟩
    simp [Channel.run, ChanOp.sends, ChanOp.receives]
  | cons op rest ih =>
    intro c hc
    have hstep := chanStep_inv c op hc
    have hrec := ih (ChanOp.apply c op) hstep
    have hrun : Channel.run c (op :: rest) = Channel.run (ChanOp.apply c op) rest := by
      simp [Channel.run]
    refine ⟨hrun ▸ hrec.1, ?_⟩
    rw [hrun, hrec.2, chanStep_balance]
    cases op <;> simp [ChanOp.sends, ChanOp.receives, List.countP_cons] <;> omega

/-- C4 (Channel modelled from the spec): every state reachable by a
sequence of send/receive operations from a fresh Channel satisfies the
invariant — balance equals waiting senders minus waiting receivers, and
the two waiting queues are never both non-empty — and the balance equals
the number of sends minus the number of receives performed. -/
theorem channel_balance_invariant (ops : List ChanOp) :
    Channel.inv (Channel.run Channel.init ops) ∧
    (Channel.run Channel.init ops).balance =
      (ChanOp.sends ops : Int) - ChanOp.receives ops := by
  have h := chanRun_aux ops Channel.init ⟨by simp [Channel.init], by simp [Channel.init]⟩
  refine ⟨h.1, ?_⟩
  rw [h.2]
  simp [Channel.init]

/-- Helper: the timer-set order is reflexive. -/
theorem pairLE_refl (a : Nat × Nat) : pairLE a a :=
  Or.inr ⟨rfl, Nat.le_refl _⟩

/-- Helper: the timer-set order is antisymmetric. -/
theorem pairLE_antisymm {a b : Nat × Nat} (h1 : pairLE a b) (h2 : pairLE b a) :
    a = b := by
  obtain ⟨a1, a2⟩ := a
  obtain ⟨b1, b2⟩ := b
  simp only [pairLE] at h1 h2
  simp only [Prod.mk.injEq]
  omega

/-- Helper: in a sorted timer set containing `x`, `bisect.bisect` points
one past an occurrence of `x`, so index `bisect - 1` reads back `x`. -/
theorem bisectRight_points_at_mem (x : Nat × Nat) :
    ∀ tp : List (Nat × Nat), tp.Pairwise pairLE → x ∈ tp →
      1 ≤ bisectRight tp x ∧ tp[bisectRight tp x - 1]? = some x := by
  intro tp
  induction tp with
  | nil =>
    intro _ hm
    cases hm
  | cons c rest ih =>
    intro hp hm
    have hps := List.pairwise_cons.1 hp
    by_cases hc : pairLE c x
    · have hb : bisectRight (c :: rest) x = bisectRight rest x + 1 := by
        simp [bisectRight, List.takeWhile_cons, hc]
      by_cases hxr : x ∈ rest
      · obtain ⟨h1, h2⟩ := ih hps.2 hxr
        refine ⟨by omega, ?_⟩
        rw [hb, Nat.add_sub_cancel]
        cases hn : bisectRight rest x with
        | zero => omega
        | succ m =>
          rw [hn, Nat.succ_sub_one] at h2
          simpa using h2
      · have hxc : x = c := by
          rcases List.mem_cons.1 hm with h | h
          · exact h
          · exact absurd h hxr
        have hr0 : bisectRight rest x = 0 := by
          cases hrest : rest with
          | nil => simp [bisectRight]
          | cons y ys =>
            by_cases hy : pairLE y x
            · have hcy : pairLE c y := hps.1 y (by simp [hrest])
              have hyx : y = x := pairLE_antisymm hy (hxc ▸ hcy)
              exact absurd (hyx ▸ (by simp [hrest] : y ∈ rest)) hxr
            · simp [bisectRight, List.takeWhile_cons, hy]
        rw [hb, hr0]
        exact ⟨by omega, by simp [hxc]⟩
    · exfalso
      rcases List.mem_cons.1 hm with h | h
      · exact hc (h ▸ pairLE_refl c)
      · exact hc (hps.1 x h)

/-- Helper: erasing the index holding the single element satisfying a
predicate leaves a list in which nothing satisfies it. -/
theorem countP_eraseIdx_zero {α : Type} (p : α → Bool) (l : List α) (i : Nat)
    (e : α) (he : l[i]? = some e) (hp : p e = true) (h1 : l.countP p = 1) :
    (l.eraseIdx i).countP p = 0 := by
  obtain ⟨hlt, hget⟩ := List.getElem?_eq_some_iff.1 he
  have hsplit : l = l.take i ++ l.drop i := (List.take_append_drop i l).symm
  have hdrop : l.drop i = e :: l.drop (i + 1) := by
    rw [List.drop_eq_getElem_cons hlt, hget]
  have hcount : l.countP p = (l.take i).countP p + (1 + (l.drop (i + 1)).countP p) := by
    conv_lhs => rw [hsplit]
    rw [List.countP_append, hdrop, List.countP_cons_of_pos _ _ hp]
    omega
  rw [List.eraseIdx_eq_take_drop_succ, List.countP_append]
  omega

/-- C8: cancelling a Timer whose `(waketime, greenlet)` pair is still in
the sorted timer set (its greenlet appearing once, as a greenlet is timed-
paused at most once) removes that pair, leaves no entry for the greenlet,
and therefore the timer drain never pops it at any later time — the timer
body never runs even after real time passes the deadline. -/
theorem timer_cancel_prevents_run (tp : List (Nat × Nat)) (w g : Nat)
    (hs : tp.Pairwise pairLE) (hm : (w, g) ∈ tp)
    (hu : tp.countP (fun e => e.2 == g) = 1) :
    ((w, g) ∉ Timer.cancel w g tp) ∧
    (g ∉ (Timer.cancel w g tp).map Prod.snd) ∧
    (∀ now, g ∉ (dueTimers now (Timer.cancel w g tp)).map Prod.snd) := by
  obtain ⟨hb1, hb2⟩ := bisectRight_points_at_mem (w, g) tp hs hm
  have hne : tp.isEmpty = false := by
    cases tp with
    | nil => cases hm
    | cons c rest => rfl
  obtain ⟨hlt, hget⟩ := List.getElem?_eq_some_iff.1 hb2
  have hcancel : Timer.cancel w g tp = tp.eraseIdx (bisectRight tp (w, g) - 1) := by
    rw [Timer.cancel]
    rw [hne]
    simp only [Bool.false_eq_true, if_false]
    have hb0 : ¬ bisectRight tp (w, g) = 0 := by omega
    simp only [hb0, if_false]
    rw [dif_pos hlt]
    have : (tp.get ⟨bisectRight tp (w, g) - 1, hlt⟩) = (w, g) := by
      simpa [List.get_eq_getElem] using hget
    rw [this]
    simp
  have hzero : (Timer.cancel w g tp).countP (fun e => e.2 == g) = 0 := by
    rw [hcancel]
    exact countP_eraseIdx_zero _ tp _ (w, g) hb2 (by simp) hu
  have hnog : ∀ e, e ∈ Timer.cancel w g tp → ¬ e.2 = g := by
    intro e hme heg
    have := List.countP_eq_zero.1 hzero e hme
    simp [heg] at this
  refine ⟨?_, ?_, ?_⟩
  · intro hmem
    exact hnog (w, g) hmem rfl
  · intro hmem
    obtain ⟨e, hme, heg⟩ := List.mem_map.1 hmem
    exact hnog e hme heg
  · intro now hmem
    obtain ⟨e, hme, heg⟩ := List.mem_map.1 hmem
    exact hnog e (List.mem_filter.1 hme).1 heg

/-- Witness for C8: the timer set `[(5, 1), (7, 2)]`; cancelling the
timer `(7, 2)` before it fires removes it, and the drain never yields
greenlet `2` at any later time. -/
theorem timer_cancel_prevents_run_witness :
    ((7, 2) ∉ Timer.cancel 7 2 [(5, 1), (7, 2)]) ∧
    (2 ∉ (Timer.cancel 7 2 [(5, 1), (7, 2)]).map Prod.snd) ∧
    (∀ now, 2 ∉ (dueTimers now (Timer.cancel 7 2 [(5, 1), (7, 2)])).map Prod.snd) :=
  timer_cancel_prevents_run [(5, 1), (7, 2)] 7 2
    (by simp [pairLE]) (by simp) (by decide)

/-- Witness for C9: registry `[(3, 1)]`, `register(3, 1)` adds no new
bits, so both backends leave the registry untouched and `3` still maps to
`1 ||| 1`. -/
theorem register_merges_by_or_witness :
    (regLookup 3 (Poll.register [(3, 1)] 3 1) =
      some ((regLookup 3 [(3, 1)]).getD 0 ||| 1)) ∧
    (regLookup 3 (Select.register [(3, 1)] 3 1) =
      some ((regLookup 3 [(3, 1)]).getD 0 ||| 1)) ∧
    (Poll.register [(3, 1)] 3 1 = [(3, 1)] ∧
      Select.register [(3, 1)] 3 1 = [(3, 1)]) := by
  have h := register_merges_by_or [(3, 1)] 3 1
  exact ⟨h.1, h.2.1, h.2.2 1 (by decide) (by decide)⟩

/-- Helper: `Event.wait` never changes the signaled flag. -/
theorem wait_preserves_is_set (current : TaskId) (timeout : Option Nat)
    (rid : Nat) (s : EventState) :
    ((Event.wait current timeout rid s).2).is_set = s.is_set := by
  by_cases h : s.is_set <;> simp [Event.wait, h]

/-- Helper: every public Lock operation leaves the event unsignaled. -/
theorem lockStep_unsignaled (s : LockState) (op : LockOp)
    (h : s.event.is_set = false) : (LockOp.apply s op).event.is_set = false := by
  cases op with
  | acquireNB => simpa [LockOp.apply, Lock.acquireNB]
  | acquireStep current rid =>
    by_cases hl : s.locked <;>
      simp [LockOp.apply, Lock.acquireStep, hl, wait_preserves_is_set, h]
  | release =>
    by_cases hl : s.locked <;>
      simp [LockOp.apply, Lock.release, hl, Event.clear, h]

/-- Helper: every public RLock operation leaves the event unsignaled. -/
theorem rlockStep_unsignaled (s : RLockState) (op : RLockOp)
    (h : s.event.is_set = false) : (RLockOp.apply s op).event.is_set = false := by
  cases op with
  | acquireNB current =>
    by_cases ho : s.owner = some current
    · simpa [RLockOp.apply, RLock.acquireNB, ho]
    · by_cases hl : s.locked <;>
        simp [RLockOp.apply, RLock.acquireNB, ho, hl, h]
  | acquireStep current rid =>
    by_cases ho : s.owner = some current
    · simpa [RLockOp.apply, RLock.acquireStep, ho]
    · by_cases hl : s.locked <;>
        simp [RLockOp.apply, RLock.acquireStep, ho, hl, wait_preserves_is_set, h]
  | release current =>
    by_cases hg : s.locked = false ∨ ¬s.owner = some current
    · simpa [RLockOp.apply, RLock.release, hg]
    · by_cases hz : s.count - 1 = 0 <;>
        simp [RLockOp.apply, RLock.release, hg, hz, Event.clear, h]

/-- Helper: a Lock run from an unsignaled event stays unsignaled. -/
theorem lock_run_unsignaled (ops : List LockOp) :
    ∀ s : LockState, s.event.is_set = false →
      (Lock.run s ops).event.is_set = false := by
  induction ops with
  | nil => intro s h; exact h
  | cons op rest ih =>
    intro s h
    exact ih (LockOp.apply s op) (lockStep_unsignaled s op h)

/-- Helper: an RLock run from an unsignaled event stays unsignaled. -/
theorem rlock_run_unsignaled (ops : List RLockOp) :
    ∀ s : RLockState, s.event.is_set = false →
      (RLock.run s ops).event.is_set = false := by
  induction ops with
  | nil => intro s h; exact h
  | cons op rest ih =>
    intro s h
    exact ih (RLockOp.apply s op) (rlockStep_unsignaled s op h)

/-- C10: for every Lock and RLock, after any sequence of public
operations from a fresh lock the internal event is unsignaled —
`release()` sets it (waking all current waiters) and immediately clears
it, and no acquire path signals it — and consequently a blocking-acquire
iteration that finds the lock held (for RLock, by another owner) always
blocks: the caller is appended to the event's waiter list and
suspends. -/
theorem lock_event_never_signaled (ops : List LockOp) (rops : List RLockOp)
    (a b : Finset TaskId) (t : TaskId) (rid : Nat) :
    (Lock.run (Lock.init a) ops).event.is_set = false ∧
    (RLock.run (RLock.init b) rops).event.is_set = false ∧
    (∀ s : LockState, s.locked = true → s.event.is_set = false →
      Lock.acquireStep t rid s =
        (true, { s with event := { s.event with
          waiters := s.event.waiters ++ [t] } })) ∧
    (∀ s : RLockState, s.owner ≠ some t → s.locked = true →
      s.event.is_set = false →
      RLock.acquireStep t rid s =
        (true, { s with event := { s.event with
          waiters := s.event.waiters ++ [t] } })) := by
  refine ⟨lock_run_unsignaled ops _ rfl, rlock_run_unsignaled rops _ rfl, ?_, ?_⟩
  · intro s hl he
    simp [Lock.acquireStep, hl, Event.wait, he]
  · intro s ho hl he
    simp [RLock.acquireStep, ho, hl, Event.wait, he]

/-- Witness for C10: an acquire/release run on each lock kind ends with
the event unsignaled, and a concrete held lock makes the next blocking
acquire iteration suspend, task 3 joining the waiter list. -/
theorem lock_event_never_signaled_witness :
    (Lock.run (Lock.init ∅) [.acquireNB, .release]).event.is_set = false ∧
    (RLock.run (RLock.init ∅) [.acquireNB 3, .release 3]).event.is_set = false ∧
    Lock.acquireStep 3 0 ⟨true, ⟨false, [], ∅, ∅⟩⟩ =
      (true, ⟨true, ⟨false, [3], ∅, ∅⟩⟩) ∧
    RLock.acquireStep 3 0 ⟨true, ⟨false, [], ∅, ∅⟩, some 9, 1⟩ =
      (true, ⟨true, ⟨false, [3], ∅, ∅⟩, some 9, 1⟩) := by
  have h := lock_event_never_signaled [.acquireNB, .release]
    [.acquireNB 3, .release 3] ∅ ∅ 3 0
  refine ⟨h.1, h.2.1, ?_, ?_⟩
  · have h3 := h.2.2.1 ⟨true, ⟨false, [], ∅, ∅⟩⟩ rfl rfl
    simpa using h3
  · have h4 := h.2.2.2 ⟨true, ⟨false, [], ∅, ∅⟩, some 9, 1⟩ (by simp) rfl rfl
    simpa using h4

end Greenhouse
